import Mathlib

/-!
Verification of the MHV-PS permit-tracking repository's authorization core.

The authorization model lives in the SQL migration
`supabase/migrations/20250911100241_weathered_gate.sql`: table shapes,
row-level-security policies (one boolean predicate per table/operation,
evaluated against the authenticated caller id `auth.uid()`), seeded
role-capability vectors, seeded region codes, and check constraints.
Each policy's `USING` / `WITH CHECK` expression is translated below into a
boolean function over an explicit database state.  The frontend helper
`toSnakeCase` (hook file, `usePermits`) is embedded over a JSON value type.
-/

namespace MHV

/-- Capability vector stored in `role_permissions.permissions`.  The jsonb
payload has a fixed schema of twelve named booleans (see the seed INSERT in
the migration, lines 335-391). -/
structure Permissions where
  canCreatePermits : Bool
  canEditPermits : Bool
  canDeletePermits : Bool
  canClosePermits : Bool
  canReopenPermits : Bool
  canViewPermits : Bool
  canExportPermits : Bool
  canManageUsers : Bool
  canViewStatistics : Bool
  canViewActivityLog : Bool
  canManagePermissions : Bool
  canReopenAnyPermit : Bool
  deriving DecidableEq

/-- Row of the `role_permissions` table (id and updated_at omitted: no policy
or constraint reads them). -/
structure RolePermission where
  role : String
  permissions : Permissions
  deriving DecidableEq

/-- Row of the `regions` table (id and created_at omitted: no policy or
constraint reads them). -/
structure Region where
  code : String
  name_en : String
  name_ar : String
  deriving DecidableEq

/-- Row of the `users` table.  uuid columns are modelled as `Nat`,
timestamps as `Nat` / `Option Nat`; the `permissions` jsonb override column
is modelled as an opaque `Option String` (no policy or constraint reads it).
Column `region` is a text array (`region_set` in the spec's vocabulary). -/
structure User where
  id : Nat
  username : String
  password : String
  email : String
  first_name : String
  last_name : String
  region : List String
  role : String
  permissions : Option String
  created_at : Nat
  last_login : Option Nat
  deriving DecidableEq

/-- Row of the `permits` table.  `materials` is a jsonb list of material
descriptors, modelled as an opaque list of strings (no policy or constraint
reads it). -/
structure Permit where
  id : Nat
  permit_number : String
  date : Nat
  region : String
  location : String
  carrier_name : String
  carrier_id : String
  request_type : String
  vehicle_plate : String
  materials : List String
  closed_by : Option Nat
  closed_at : Option Nat
  closed_by_name : Option String
  can_reopen : Bool
  created_by : Nat
  created_at : Nat
  deriving DecidableEq

/-- Row of the `activity_logs` table. -/
structure ActivityLog where
  id : Nat
  user_id : Nat
  name : String
  username : String
  action : String
  details : String
  timestamp : Nat
  ip : Option String
  user_agent : Option String
  deriving DecidableEq

/-- The database state the policies are evaluated against. -/
structure DB where
  users : List User
  permits : List Permit
  activity_logs : List ActivityLog
  role_permissions : List RolePermission
  regions : List Region
  deriving DecidableEq

/-! ### Row-level-security policies

Each definition is the direct translation of one `CREATE POLICY` expression.
`uid` is `auth.uid()`, the authenticated caller's id; an `EXISTS (SELECT 1
FROM users WHERE id = auth.uid() AND ...)` subquery becomes `db.users.any`.
-/

/-- Policy "Users can read own data" (users, SELECT): `auth.uid() = id`. -/
def usersSelectOwn (uid : Nat) (row : User) : Bool :=
  uid == row.id

/-- Policy "Admins can read all users" (users, SELECT). -/
def usersSelectAdmin (db : DB) (uid : Nat) : Bool :=
  db.users.any fun u => u.id == uid && u.role == "admin"

/-- Policy "Admins can create users" (users, INSERT `WITH CHECK`). -/
def usersInsertAllowed (db : DB) (uid : Nat) : Bool :=
  db.users.any fun u => u.id == uid && u.role == "admin"

/-- Policy "Admins can update users" (users, UPDATE `USING`). -/
def usersUpdateAllowed (db : DB) (uid : Nat) : Bool :=
  db.users.any fun u => u.id == uid && u.role == "admin"

/-- Policy "Admins can delete users" (users, DELETE `USING`): caller must be
an admin AND the target row's id must differ from `auth.uid()`
(`users.id != auth.uid() -- Cannot delete self`). -/
def usersDeleteAllowed (db : DB) (uid : Nat) (row : User) : Bool :=
  (db.users.any fun u => u.id == uid && u.role == "admin") && !(row.id == uid)

/-- Policy "Users can view permits in their regions" (permits, SELECT):
caller row exists and (`region @> ARRAY[permits.region]` OR
`role IN ('admin', 'manager')`). -/
def permitsSelectAllowed (db : DB) (uid : Nat) (p : Permit) : Bool :=
  db.users.any fun u =>
    u.id == uid && (u.region.contains p.region || (u.role == "admin" || u.role == "manager"))

/-- Policy "Managers and admins can create permits" (permits, INSERT
`WITH CHECK`). -/
def permitsInsertAllowed (db : DB) (uid : Nat) (p : Permit) : Bool :=
  db.users.any fun u =>
    u.id == uid && ((u.role == "admin" || u.role == "manager") &&
      (u.region.contains p.region || u.role == "admin"))

/-- Policy "Managers and admins can update permits" (permits, UPDATE
`USING`): the caller condition of the INSERT policy AND
`permits.closed_at IS NULL -- Cannot edit closed permits`. -/
def permitsUpdateAllowed (db : DB) (uid : Nat) (p : Permit) : Bool :=
  (db.users.any fun u =>
    u.id == uid && ((u.role == "admin" || u.role == "manager") &&
      (u.region.contains p.region || u.role == "admin"))) &&
  p.closed_at.isNone

/-- Policy "Admins can delete permits" (permits, DELETE `USING`). -/
def permitsDeleteAllowed (db : DB) (uid : Nat) : Bool :=
  db.users.any fun u => u.id == uid && u.role == "admin"

/-- Policy "Users can view activity logs based on role" (activity_logs,
SELECT). -/
def activityLogsSelectAllowed (db : DB) (uid : Nat) : Bool :=
  db.users.any fun u =>
    u.id == uid && (u.role == "admin" || u.role == "manager" || u.role == "security_officer")

/-- Policy "All authenticated users can create activity logs" (activity_logs,
INSERT `WITH CHECK`): `user_id = auth.uid()`. -/
def activityLogsInsertAllowed (uid : Nat) (e : ActivityLog) : Bool :=
  e.user_id == uid

/-- Policy "All authenticated users can view role permissions"
(role_permissions, SELECT). -/
def rolePermissionsSelectAllowed (db : DB) (uid : Nat) : Bool :=
  db.users.any fun u => u.id == uid

/-- Policy "Admins can manage role permissions" (role_permissions,
`FOR ALL`): covers insert, update and delete on the table. -/
def rolePermissionsAllAllowed (db : DB) (uid : Nat) : Bool :=
  db.users.any fun u => u.id == uid && u.role == "admin"

/-- Policy "All authenticated users can read regions" (regions, SELECT). -/
def regionsSelectAllowed (db : DB) (uid : Nat) : Bool :=
  db.users.any fun u => u.id == uid

/-- Result of a SELECT on `permits` under row-level security: the rows whose
SELECT policy evaluates to true for the caller. -/
def permitsRead (db : DB) (uid : Nat) : List Permit :=
  db.permits.filter (permitsSelectAllowed db uid)

/-! ### Seed data

The migration seeds `role_permissions` with exactly four rows (lines
335-391) and `regions` with nineteen rows (lines 397-417).
-/

/-- Seeded capability vector for role `admin`. -/
def adminPermissions : Permissions :=
  { canCreatePermits := true
    canEditPermits := true
    canDeletePermits := true
    canClosePermits := true
    canReopenPermits := true
    canViewPermits := true
    canExportPermits := true
    canManageUsers := true
    canViewStatistics := true
    canViewActivityLog := true
    canManagePermissions := true
    canReopenAnyPermit := true }

/-- Seeded capability vector for role `manager`. -/
def managerPermissions : Permissions :=
  { canCreatePermits := true
    canEditPermits := true
    canDeletePermits := false
    canClosePermits := true
    canReopenPermits := true
    canViewPermits := true
    canExportPermits := true
    canManageUsers := false
    canViewStatistics := true
    canViewActivityLog := true
    canManagePermissions := false
    canReopenAnyPermit := true }

/-- Seeded capability vector for role `security_officer`. -/
def securityOfficerPermissions : Permissions :=
  { canCreatePermits := false
    canEditPermits := false
    canDeletePermits := false
    canClosePermits := true
    canReopenPermits := true
    canViewPermits := true
    canExportPermits := false
    canManageUsers := false
    canViewStatistics := false
    canViewActivityLog := true
    canManagePermissions := false
    canReopenAnyPermit := false }

/-- Seeded capability vector for role `observer`. -/
def observerPermissions : Permissions :=
  { canCreatePermits := false
    canEditPermits := false
    canDeletePermits := false
    canClosePermits := false
    canReopenPermits := false
    canViewPermits := true
    canExportPermits := false
    canManageUsers := false
    canViewStatistics := false
    canViewActivityLog := false
    canManagePermissions := false
    canReopenAnyPermit := false }

/-- Content of `role_permissions` after the seed INSERT. -/
def rolePermissionsSeed : List RolePermission :=
  [ { role := "admin", permissions := adminPermissions },
    { role := "manager", permissions := managerPermissions },
    { role := "security_officer", permissions := securityOfficerPermissions },
    { role := "observer", permissions := observerPermissions } ]

/-- Content of `regions` after the seed INSERT (codes with their English and
Arabic display names). -/
def regionsSeed : List Region :=
  [ { code := "headquarters", name_en := "Headquarters", name_ar := "المقر الرئيسي" },
    { code := "riyadh", name_en := "Riyadh", name_ar := "الرياض" },
    { code := "qassim", name_en := "Al-Qassim", name_ar := "القصيم" },
    { code := "hail", name_en := "Hail", name_ar := "حائل" },
    { code := "dammam", name_en := "Dammam", name_ar := "الدمام" },
    { code := "ahsa", name_en := "Al-Ahsa", name_ar := "الأحساء" },
    { code := "jubail", name_en := "Jubail", name_ar := "الجبيل" },
    { code := "jouf", name_en := "Al-Jouf", name_ar := "الجوف" },
    { code := "northern_borders", name_en := "Northern Borders", name_ar := "الحدود الشمالية" },
    { code := "jeddah", name_en := "Jeddah", name_ar := "جدة" },
    { code := "makkah", name_en := "Makkah", name_ar := "مكة" },
    { code := "medina", name_en := "Medina", name_ar := "المدينة" },
    { code := "tabuk", name_en := "Tabuk", name_ar := "تبوك" },
    { code := "yanbu", name_en := "Yanbu", name_ar := "ينبع" },
    { code := "asir", name_en := "Asir", name_ar := "عسير" },
    { code := "taif", name_en := "Taif", name_ar := "الطائف" },
    { code := "baha", name_en := "Al-Baha", name_ar := "الباحة" },
    { code := "jizan", name_en := "Jizan", name_ar := "جازان" },
    { code := "najran", name_en := "Najran", name_ar := "نجران" } ]

/-! ### Validation functions and check constraints -/

/-- SQL function `validate_region_code`: the code exists in `regions`. -/
def validate_region_code (regions : List Region) (region_code : String) : Bool :=
  regions.any fun r => r.code == region_code

/-- SQL function `validate_user_regions`: a `FOREACH` loop over the array
that returns false at the first code failing `validate_region_code` and true
when the loop finishes. -/
def validate_user_regions (dbRegions : List Region) : List String → Bool
  | [] => true
  | region_code :: rest =>
      if !validate_region_code dbRegions region_code then false
      else validate_user_regions dbRegions rest

/-- Check constraint `users_regions_check` on `users`:
`CHECK (validate_user_regions(region))`. -/
def users_regions_check (dbRegions : List Region) (u : User) : Bool :=
  validate_user_regions dbRegions u.region

/-- Check constraint `permits_region_check` on `permits`:
`CHECK (validate_region_code(region))`. -/
def permits_region_check (dbRegions : List Region) (p : Permit) : Bool :=
  validate_region_code dbRegions p.region

/-- Check constraint `users_role_check` on `users`. -/
def users_role_check (u : User) : Bool :=
  u.role == "admin" || u.role == "manager" || u.role == "security_officer" ||
    u.role == "observer"

/-- Check constraint `permits_request_type_check` on `permits`. -/
def permits_request_type_check (p : Permit) : Bool :=
  p.request_type == "material_entrance" || p.request_type == "material_exit" ||
    p.request_type == "heavy_vehicle_entrance_exit" ||
    p.request_type == "heavy_vehicle_entrance" || p.request_type == "heavy_vehicle_exit"

/-! ### Reopen transition -/

/-- Lookup of §4.2's `getCapabilities(role) -> capability_set` in the
`role_permissions` table. -/
def getCapabilities (tbl : List RolePermission) (role : String) : Option Permissions :=
  (tbl.find? fun r => r.role == role).map RolePermission.permissions

/-- Modelled from the spec: the backend service handling
`PATCH /permits/:id/reopen` (reached through `permitsAPI.reopen` in
`src/services/api.ts`) is not part of the repository snapshot, so the
`Closed -> Open` transition is taken from spec §4.4: it requires the
reopen capability on the caller's role, the permit's `can_reopen` flag, and
either the reopen-any capability or that the caller is the user recorded in
`closed_by`; on success it clears the closing fields, otherwise the permit
is left unchanged (`none`). -/
def reopenPermit (tbl : List RolePermission) (caller : User) (p : Permit) :
    Option Permit :=
  match p.closed_at with
  | none => none
  | some _ =>
      match getCapabilities tbl caller.role with
      | none => none
      | some caps =>
          if caps.canReopenPermits && p.can_reopen &&
              (caps.canReopenAnyPermit || p.closed_by == some caller.id) then
            some { p with closed_at := none, closed_by := none, closed_by_name := none }
          else none

/-! ### The frontend key-conversion helper

`usePermits` defines `toSnakeCase`, a recursive conversion of camelCase keys
to snake_case over JSON-like values: arrays are mapped, objects are rebuilt
by `Object.keys(obj).reduce` assigning `acc[snakeKey] = toSnakeCase(obj[key])`
into a fresh accumulator, and primitives (and `null`) are returned as-is.
-/

/-- JSON-like values: `null`, primitives, arrays, and string-keyed objects
whose entries are listed in insertion order. -/
inductive Json where
  | null : Json
  | bool (b : Bool) : Json
  | num (n : Int) : Json
  | str (s : String) : Json
  | arr (xs : List Json) : Json
  | obj (kvs : List (String × Json)) : Json

/-- Key conversion of the source:
`key.replace(/[A-Z]/g, letter => underscore + letter.toLowerCase())`.
Each character in the class `[A-Z]` is replaced by an underscore followed by
its lowercase form; every other character is kept.  `Char.isUpper` is exactly
the class `[A-Z]` and `Char.toLower` adds 32 to a code point in that range,
matching `toLowerCase` on the matched characters. -/
def snakeKey (key : String) : String :=
  String.mk (key.data.flatMap fun c =>
    if c.isUpper then ['_', c.toLower] else [c])

/-- One JavaScript property assignment `acc[k] = v` on an object whose
entries are `acc`: an existing key keeps its position and gets the new
value, a new key is appended. -/
def objAssign (acc : List (String × Json)) (k : String) (v : Json) :
    List (String × Json) :=
  if acc.any (fun kv => kv.1 == k) then
    acc.map fun kv => if kv.1 == k then (kv.1, v) else kv
  else acc ++ [(k, v)]

/-- The `reduce` of the source's object case: the converted entries are
assigned one by one into a fresh accumulator. -/
def buildObj (pairs : List (String × Json)) : List (String × Json) :=
  pairs.foldl (fun acc kv => objAssign acc kv.1 kv.2) []

mutual

/-- The source's `toSnakeCase` (array case `obj.map(toSnakeCase)`, object
case the `reduce` described at `buildObj`, all other values returned
unchanged). -/
def toSnakeCase : Json → Json
  | .null => .null
  | .bool b => .bool b
  | .num n => .num n
  | .str s => .str s
  | .arr xs => .arr (toSnakeCaseList xs)
  | .obj kvs => .obj (buildObj (toSnakeCaseObj kvs))

/-- Elementwise conversion of an array's entries. -/
def toSnakeCaseList : List Json → List Json
  | [] => []
  | x :: xs => toSnakeCase x :: toSnakeCaseList xs

/-- Conversion of an object's entries in iteration order, before they are
assigned into the accumulator. -/
def toSnakeCaseObj : List (String × Json) → List (String × Json)
  | [] => []
  | (k, v) :: kvs => (snakeKey k, toSnakeCase v) :: toSnakeCaseObj kvs

end

/-! ### Sample rows used to instantiate the theorems on concrete inputs -/

/-- Sample admin account. -/
def adminUser : User :=
  { id := 1, username := "admin", password := "pw", email := "admin@example.com",
    first_name := "System", last_name := "Administrator",
    region := ["headquarters"], role := "admin", permissions := none,
    created_at := 0, last_login := none }

/-- Sample manager account scoped to riyadh. -/
def managerUser : User :=
  { id := 2, username := "manager1", password := "pw", email := "m@example.com",
    first_name := "Mia", last_name := "Manager",
    region := ["riyadh"], role := "manager", permissions := none,
    created_at := 0, last_login := none }

/-- Sample security officer account scoped to riyadh. -/
def officerUser : User :=
  { id := 3, username := "officer1", password := "pw", email := "o@example.com",
    first_name := "Omar", last_name := "Officer",
    region := ["riyadh"], role := "security_officer", permissions := none,
    created_at := 0, last_login := none }

/-- Sample observer account scoped to riyadh. -/
def observerUser : User :=
  { id := 4, username := "observer1", password := "pw", email := "b@example.com",
    first_name := "Olga", last_name := "Observer",
    region := ["riyadh"], role := "observer", permissions := none,
    created_at := 0, last_login := none }

/-- Sample open permit in riyadh. -/
def openPermit : Permit :=
  { id := 10, permit_number := "MHV2025000001", date := 0, region := "riyadh",
    location := "Gate 1", carrier_name := "Carrier Co", carrier_id := "C1",
    request_type := "material_entrance", vehicle_plate := "ABC123", materials := [],
    closed_by := none, closed_at := none, closed_by_name := none,
    can_reopen := true, created_by := 2, created_at := 0 }

/-- Sample closed permit in dammam, closed by the security officer. -/
def closedPermit : Permit :=
  { id := 11, permit_number := "MHV2025000002", date := 0, region := "dammam",
    location := "Gate 2", carrier_name := "Carrier Co", carrier_id := "C1",
    request_type := "material_exit", vehicle_plate := "ABC124", materials := [],
    closed_by := some 3, closed_at := some 100, closed_by_name := some "Omar Officer",
    can_reopen := true, created_by := 2, created_at := 0 }

/-- Closed permit whose recorded closer is the observer account (reachable
after an admin demotes the closer's role). -/
def observerClosedPermit : Permit :=
  { id := 12, permit_number := "MHV2025000003", date := 0, region := "riyadh",
    location := "Gate 3", carrier_name := "Carrier Co", carrier_id := "C1",
    request_type := "material_exit", vehicle_plate := "ABC125", materials := [],
    closed_by := some 4, closed_at := some 100, closed_by_name := some "Olga Observer",
    can_reopen := true, created_by := 2, created_at := 0 }

/-- Sample database used to instantiate claims on concrete inputs. -/
def sampleDB : DB :=
  { users := [adminUser, managerUser, officerUser, observerUser],
    permits := [openPermit, closedPermit, observerClosedPermit],
    activity_logs := [],
    role_permissions := rolePermissionsSeed,
    regions := regionsSeed }

/-! ## Theorems

Helper lemmas come first, then one theorem per claim.
-/

/-! ### Character-level facts about the key conversion -/

theorem toNat_ofNat_small {n : Nat} (h : n < 0xd800) : (Char.ofNat n).toNat = n := by
  rw [Char.ofNat, dif_pos (Or.inl h)]
  rfl

theorem isUpper_iff (c : Char) : c.isUpper = true ↔ 65 ≤ c.toNat ∧ c.toNat ≤ 90 := by
  simp only [Char.isUpper, Bool.and_eq_true, decide_eq_true_eq, ge_iff_le]
  rw [UInt32.le_def, UInt32.le_def, BitVec.le_def, BitVec.le_def]
  simp only [UInt32.toBitVec_ofNat]
  constructor
  · rintro ⟨h1, h2⟩
    exact ⟨by simpa using h1, by simpa using h2⟩
  · rintro ⟨h1, h2⟩
    exact ⟨by simpa using h1, by simpa using h2⟩

theorem isUpper_toLower (c : Char) : (Char.toLower c).isUpper = false := by
  rw [Char.toLower]
  by_cases h : c.toNat ≥ 65 ∧ c.toNat ≤ 90
  · rw [if_pos h]
    have hv : (Char.ofNat (c.toNat + 32)).toNat = c.toNat + 32 :=
      toNat_ofNat_small (by omega)
    rw [Bool.eq_false_iff]
    intro hup
    rw [isUpper_iff] at hup
    omega
  · rw [if_neg h]
    rw [Bool.eq_false_iff]
    intro hup
    rw [isUpper_iff] at hup
    omega

theorem snakeKey_no_upper (key : String) :
    ∀ c ∈ (snakeKey key).data, c.isUpper = false := by
  intro c hc
  simp only [snakeKey, List.mem_flatMap] at hc
  obtain ⟨d, _, hd⟩ := hc
  by_cases h : d.isUpper
  · rw [if_pos h] at hd
    rcases List.mem_cons.1 hd with h1 | h1
    · rw [h1]
      rfl
    · rcases List.mem_cons.1 h1 with h2 | h2
      · rw [h2]
        exact isUpper_toLower d
      · cases h2
  · rw [if_neg h] at hd
    rcases List.mem_cons.1 hd with h1 | h1
    · rw [h1]
      simpa using h
    · cases h1

theorem snakeKey_fixed (key : String) (h : ∀ c ∈ key.data, c.isUpper = false) :
    snakeKey key = key := by
  simp only [snakeKey]
  have h2 : (key.data.flatMap fun c => if c.isUpper then ['_', c.toLower] else [c])
      = key.data.flatMap fun c => [c] :=
    List.flatMap_congr fun c hc => by rw [if_neg (by simp [h c hc])]
  rw [h2, List.flatMap_singleton']

theorem snakeKey_idem (key : String) : snakeKey (snakeKey key) = snakeKey key :=
  snakeKey_fixed _ (snakeKey_no_upper key)

/-! ### Facts about the object accumulator -/

theorem toSnakeCaseObj_eq_map (l : List (String × Json)) :
    toSnakeCaseObj l = l.map fun kv => (snakeKey kv.1, toSnakeCase kv.2) := by
  induction l with
  | nil => rfl
  | cons kv rest ih =>
      obtain ⟨k, v⟩ := kv
      rw [toSnakeCaseObj, ih, List.map_cons]

theorem objAssign_append {acc : List (String × Json)} {k : String} (v : Json)
    (h : (acc.any fun kv => kv.1 == k) = false) :
    objAssign acc k v = acc ++ [(k, v)] := by
  rw [objAssign, if_neg (by simp [h])]

theorem objAssign_keys_overwrite {acc : List (String × Json)} {k : String} (v : Json)
    (h : (acc.any fun kv => kv.1 == k) = true) :
    (objAssign acc k v).map Prod.fst = acc.map Prod.fst := by
  rw [objAssign, if_pos h, List.map_map]
  apply List.map_congr_left
  intro kv _
  simp only [Function.comp_apply]
  split
  · rfl
  · rfl

theorem objAssign_mem {acc : List (String × Json)} {k : String} {v : Json} :
    ∀ kv ∈ objAssign acc k v, kv ∈ acc ∨ kv = (k, v) := by
  intro kv hkv
  by_cases hc : (acc.any fun kv => kv.1 == k) = true
  · rw [objAssign, if_pos hc] at hkv
    rcases List.mem_map.1 hkv with ⟨kv₀, h₀, heq⟩
    by_cases hk : (kv₀.1 == k) = true
    · right
      rw [if_pos hk] at heq
      have hkeq : kv₀.1 = k := by simpa using hk
      rw [← heq, hkeq]
    · left
      rw [if_neg (by simp [Bool.eq_false_iff.2 hk])] at heq
      rw [← heq]
      exact h₀
  · rw [objAssign_append v (Bool.eq_false_iff.2 hc)] at hkv
    rcases List.mem_append.1 hkv with h | h
    · exact Or.inl h
    · exact Or.inr (by simpa using h)

theorem objAssign_nodup {acc : List (String × Json)} (k : String) (v : Json)
    (h : (acc.map Prod.fst).Nodup) : ((objAssign acc k v).map Prod.fst).Nodup := by
  by_cases hc : (acc.any fun kv => kv.1 == k) = true
  · rw [objAssign_keys_overwrite v hc]
    exact h
  · have hc' : (acc.any fun kv => kv.1 == k) = false := Bool.eq_false_iff.2 hc
    rw [objAssign_append v hc', List.map_append]
    have hk : k ∉ acc.map Prod.fst := by
      intro hmem
      rcases List.mem_map.1 hmem with ⟨kv, hkv, hfst⟩
      have hfalse := List.any_eq_false.1 hc' kv hkv
      simp [hfst] at hfalse
    simp [List.nodup_append, h, hk]

theorem foldl_objAssign_mem (pairs : List (String × Json)) :
    ∀ (acc : List (String × Json)) (kv : String × Json),
      kv ∈ pairs.foldl (fun a kv => objAssign a kv.1 kv.2) acc →
      kv ∈ acc ∨ kv ∈ pairs := by
  induction pairs with
  | nil =>
      intro acc kv h
      exact Or.inl (by simpa using h)
  | cons p rest ih =>
      intro acc kv h
      rw [List.foldl_cons] at h
      rcases ih _ kv h with h' | h'
      · rcases objAssign_mem kv h' with h'' | h''
        · exact Or.inl h''
        · right
          rw [h'']
          simp
      · exact Or.inr (List.mem_cons_of_mem _ h')

theorem buildObj_subset (pairs : List (String × Json)) :
    ∀ kv ∈ buildObj pairs, kv ∈ pairs := by
  intro kv h
  rcases foldl_objAssign_mem pairs [] kv h with h' | h'
  · cases h'
  · exact h'

theorem foldl_objAssign_nodup (pairs : List (String × Json)) :
    ∀ acc : List (String × Json), (acc.map Prod.fst).Nodup →
      (((pairs.foldl (fun a kv => objAssign a kv.1 kv.2) acc).map Prod.fst)).Nodup := by
  induction pairs with
  | nil =>
      intro acc h
      simpa using h
  | cons p rest ih =>
      intro acc h
      rw [List.foldl_cons]
      exact ih _ (objAssign_nodup _ _ h)

theorem buildObj_nodup (pairs : List (String × Json)) :
    ((buildObj pairs).map Prod.fst).Nodup :=
  foldl_objAssign_nodup pairs [] (by simp)

theorem foldl_objAssign_fresh (pairs : List (String × Json)) :
    ∀ acc : List (String × Json), (pairs.map Prod.fst).Nodup →
      (∀ k ∈ pairs.map Prod.fst, k ∉ acc.map Prod.fst) →
      pairs.foldl (fun a kv => objAssign a kv.1 kv.2) acc = acc ++ pairs := by
  induction pairs with
  | nil =>
      intro acc _ _
      simp
  | cons p rest ih =>
      intro acc hnd hfresh
      obtain ⟨k, v⟩ := p
      rw [List.foldl_cons]
      have hp : (acc.any fun kv => kv.1 == k) = false := by
        rw [Bool.eq_false_iff]
        intro hany
        rcases List.any_eq_true.1 hany with ⟨kv, hkv, hbeq⟩
        have hkeq : kv.1 = k := by simpa using hbeq
        exact hfresh k (by simp) (hkeq ▸ List.mem_map_of_mem Prod.fst hkv)
      rw [objAssign_append v hp]
      rw [List.map_cons, List.nodup_cons] at hnd
      have hfresh' : ∀ k' ∈ rest.map Prod.fst, k' ∉ (acc ++ [(k, v)]).map Prod.fst := by
        intro k' hk'
        rw [List.map_append, List.mem_append]
        rintro (h | h)
        · exact hfresh k' (by simp [hk']) h
        · have : k' = k := by simpa using h
          exact hnd.1 (this ▸ hk')
      rw [ih _ hnd.2 hfresh', List.append_assoc, List.singleton_append]

theorem buildObj_fixed (pairs : List (String × Json))
    (h : (pairs.map Prod.fst).Nodup) : buildObj pairs = pairs := by
  have hfold := foldl_objAssign_fresh pairs [] h (by simp)
  simpa [buildObj] using hfold

theorem toSnakeCaseObj_fst_snake (l : List (String × Json)) :
    ∀ kv ∈ toSnakeCaseObj l, snakeKey kv.1 = kv.1 := by
  intro kv h
  rw [toSnakeCaseObj_eq_map] at h
  rcases List.mem_map.1 h with ⟨kv₀, _, heq⟩
  rw [← heq]
  exact snakeKey_idem kv₀.1

theorem toSnakeCaseObj_fixed (l : List (String × Json))
    (h1 : ∀ kv ∈ l, snakeKey kv.1 = kv.1) (h2 : ∀ kv ∈ l, toSnakeCase kv.2 = kv.2) :
    toSnakeCaseObj l = l := by
  induction l with
  | nil => rfl
  | cons kv rest ih =>
      obtain ⟨k, v⟩ := kv
      rw [toSnakeCaseObj]
      rw [h1 (k, v) (by simp), h2 (k, v) (by simp)]
      rw [ih (fun kv h => h1 kv (List.mem_cons_of_mem _ h))
        (fun kv h => h2 kv (List.mem_cons_of_mem _ h))]

mutual

theorem toSnakeCase_idemAux : ∀ j, toSnakeCase (toSnakeCase j) = toSnakeCase j
  | .null => rfl
  | .bool _ => rfl
  | .num _ => rfl
  | .str _ => rfl
  | .arr xs => by rw [toSnakeCase, toSnakeCase, toSnakeCaseList_idemAux]
  | .obj kvs => by
      rw [toSnakeCase, toSnakeCase]
      have hsub := buildObj_subset (toSnakeCaseObj kvs)
      have h1 : ∀ kv ∈ buildObj (toSnakeCaseObj kvs), snakeKey kv.1 = kv.1 :=
        fun kv hkv => toSnakeCaseObj_fst_snake kvs kv (hsub kv hkv)
      have h2 : ∀ kv ∈ buildObj (toSnakeCaseObj kvs), toSnakeCase kv.2 = kv.2 :=
        fun kv hkv => toSnakeCaseObjValuesAux kvs kv (hsub kv hkv)
      rw [toSnakeCaseObj_fixed _ h1 h2, buildObj_fixed _ (buildObj_nodup _)]

theorem toSnakeCaseList_idemAux :
    ∀ xs, toSnakeCaseList (toSnakeCaseList xs) = toSnakeCaseList xs
  | [] => rfl
  | x :: xs => by
      rw [toSnakeCaseList, toSnakeCaseList, toSnakeCase_idemAux, toSnakeCaseList_idemAux]

theorem toSnakeCaseObjValuesAux :
    ∀ kvs, ∀ kv ∈ toSnakeCaseObj kvs, toSnakeCase kv.2 = kv.2
  | [] => by
      intro kv h
      cases h
  | (k, v) :: rest => by
      intro kv hkv
      rw [toSnakeCaseObj] at hkv
      rcases List.mem_cons.1 hkv with h | h
      · rw [h]
        exact toSnakeCase_idemAux v
      · exact toSnakeCaseObjValuesAux rest kv h

end

/-- C10: the key-conversion helper `toSnakeCase` is idempotent: for every
JSON-like value `v`, `toSnakeCase (toSnakeCase v) = toSnakeCase v`, since no
key in its output contains an uppercase letter. -/
theorem toSnakeCase_idempotent (v : Json) :
    toSnakeCase (toSnakeCase v) = toSnakeCase v :=
  toSnakeCase_idemAux v

/-! ### Evaluating the caller subquery

Every policy resolves the caller through
`EXISTS (SELECT 1 FROM users WHERE id = auth.uid() AND ...)`.  When `u` is a
row of `users` and ids are unique (`id` is the primary key), the subquery
collapses to the condition evaluated at `u`.
-/

theorem users_any_eq {db : DB} {u : User} (P : User → Bool)
    (hu : u ∈ db.users) (huniq : ∀ v ∈ db.users, v.id = u.id → v = u) :
    (db.users.any fun v => v.id == u.id && P v) = P u := by
  by_cases hP : P u = true
  · rw [List.any_eq_true.2 ⟨u, hu, by simp [hP]⟩, hP]
  · have hfalse : (db.users.any fun v => v.id == u.id && P v) = false := by
      rw [Bool.eq_false_iff]
      intro hany
      rcases List.any_eq_true.1 hany with ⟨v, hv, hvp⟩
      rw [Bool.and_eq_true] at hvp
      have hvid : v.id = u.id := by simpa using hvp.1
      rw [huniq v hv hvid] at hvp
      exact hP hvp.2
    rw [hfalse]
    exact (Bool.eq_false_iff.2 hP).symm

/-- C1: for a user `u` of the database (ids unique), the SELECT on `permits`
returns exactly the permits whose region is in `u`'s region array, together
with all permits when `u`'s role is admin or manager, and nothing else. -/
theorem permitsRead_exact (db : DB) (u : User) (p : Permit)
    (hu : u ∈ db.users) (huniq : ∀ v ∈ db.users, v.id = u.id → v = u) :
    p ∈ permitsRead db u.id ↔
      p ∈ db.permits ∧
        (p.region ∈ u.region ∨ u.role = "admin" ∨ u.role = "manager") := by
  rw [permitsRead, List.mem_filter]
  have hsel : permitsSelectAllowed db u.id p =
      (u.region.contains p.region || (u.role == "admin" || u.role == "manager")) :=
    users_any_eq _ hu huniq
  rw [hsel]
  simp [List.contains, List.elem_iff]

/-- C1 witness: the observer sees the riyadh permit through region
membership. -/
theorem permitsRead_exact_witness :
    openPermit ∈ permitsRead sampleDB observerUser.id ↔
      openPermit ∈ sampleDB.permits ∧
        (openPermit.region ∈ observerUser.region ∨ observerUser.role = "admin" ∨
          observerUser.role = "manager") :=
  permitsRead_exact sampleDB observerUser openPermit (by decide) (by decide)

/-- C2: a permit whose `closed_at` is set cannot be updated through the
UPDATE policy, whatever the caller is: the policy conjoins
`permits.closed_at IS NULL`. -/
theorem closed_permit_update_denied (db : DB) (uid : Nat) (p : Permit) (t : Nat)
    (h : p.closed_at = some t) : permitsUpdateAllowed db uid p = false := by
  rw [permitsUpdateAllowed, h]
  simp

/-- C2 witness: even the admin cannot update the closed permit. -/
theorem closed_permit_update_denied_witness :
    closedPermit.closed_at = some 100 ∧
      permitsUpdateAllowed sampleDB adminUser.id closedPermit = false :=
  ⟨rfl, closed_permit_update_denied sampleDB adminUser.id closedPermit 100 rfl⟩

/-- C3 counterexample: the claim omits the base reopen capability.  The
observer role's seeded vector has `canReopenPermits = false`, so a caller
whose role is observer and who is the recorded closer (reachable after an
admin demotes the closer's role) satisfies the claim's condition —
`can_reopen` is true and the caller is the closer — yet the reopen is
denied. -/
theorem reopen_claim_counterexample :
    ¬ ((reopenPermit rolePermissionsSeed observerUser observerClosedPermit ≠ none) ↔
        (observerClosedPermit.can_reopen = true ∧
          (observerPermissions.canReopenAnyPermit = true ∨
            observerClosedPermit.closed_by = some observerUser.id))) := by
  intro h
  exact h.2 ⟨rfl, Or.inr rfl⟩ rfl

/-- C3 (amended): for a closed permit, the reopen succeeds iff the caller
role's `canReopenPermits` capability is true AND the permit's `can_reopen`
flag is true AND (the role's `canReopenAnyPermit` capability is true OR the
caller is the user recorded in `closed_by`); otherwise it returns `none`,
leaving the permit closed and unchanged. -/
theorem reopen_correct (tbl : List RolePermission) (caller : User) (p : Permit)
    (t : Nat) (caps : Permissions) (hclosed : p.closed_at = some t)
    (hcaps : getCapabilities tbl caller.role = some caps) :
    (reopenPermit tbl caller p ≠ none) ↔
      caps.canReopenPermits = true ∧ p.can_reopen = true ∧
        (caps.canReopenAnyPermit = true ∨ p.closed_by = some caller.id) := by
  simp only [reopenPermit, hclosed, hcaps]
  split
  next hcond =>
    simp only [ne_eq, reduceCtorEq, not_false_eq_true, true_iff]
    simp only [Bool.and_eq_true, Bool.or_eq_true, beq_iff_eq] at hcond
    exact ⟨hcond.1.1, hcond.1.2, hcond.2⟩
  next hcond =>
    simp only [ne_eq, not_true_eq_false, false_iff]
    rintro ⟨h1, h2, h3⟩
    apply hcond
    rw [h1, h2]
    rcases h3 with h | h
    · rw [h]
      rfl
    · rw [h]
      simp

/-- C3 witness: the security officer who closed the permit may reopen it,
through the closer branch (the role lacks the reopen-any capability). -/
theorem reopen_correct_witness :
    closedPermit.closed_at = some 100 ∧
    getCapabilities rolePermissionsSeed officerUser.role =
      some securityOfficerPermissions ∧
    ((reopenPermit rolePermissionsSeed officerUser closedPermit ≠ none) ↔
      securityOfficerPermissions.canReopenPermits = true ∧
        closedPermit.can_reopen = true ∧
        (securityOfficerPermissions.canReopenAnyPermit = true ∨
          closedPermit.closed_by = some officerUser.id)) :=
  ⟨rfl, by decide,
    reopen_correct rolePermissionsSeed officerUser closedPermit 100
      securityOfficerPermissions rfl (by decide)⟩

/-- C4: a caller whose role is observer is denied every write on the
`permits`, `users` and `role_permissions` tables: the INSERT/UPDATE policies
on permits require admin or manager, their DELETE policy requires admin, and
every write on users and role_permissions requires admin. -/
theorem observer_writes_denied (db : DB) (u : User) (p : Permit) (target : User)
    (hu : u ∈ db.users) (hrole : u.role = "observer")
    (huniq : ∀ v ∈ db.users, v.id = u.id → v = u) :
    permitsInsertAllowed db u.id p = false ∧
    permitsUpdateAllowed db u.id p = false ∧
    permitsDeleteAllowed db u.id = false ∧
    usersInsertAllowed db u.id = false ∧
    usersUpdateAllowed db u.id = false ∧
    usersDeleteAllowed db u.id target = false ∧
    rolePermissionsAllAllowed db u.id = false := by
  have hadmin : (db.users.any fun v => v.id == u.id && v.role == "admin") = false := by
    rw [users_any_eq (fun v => v.role == "admin") hu huniq]
    simp [hrole]
  have hmgr : (db.users.any fun v =>
      v.id == u.id && ((v.role == "admin" || v.role == "manager") &&
        (v.region.contains p.region || v.role == "admin"))) = false := by
    rw [users_any_eq _ hu huniq]
    simp [hrole]
  refine ⟨?_, ?_, ?_, ?_, ?_, ?_, ?_⟩
  · rw [permitsInsertAllowed]
    exact hmgr
  · rw [permitsUpdateAllowed, hmgr]
    simp
  · rw [permitsDeleteAllowed]
    exact hadmin
  · rw [usersInsertAllowed]
    exact hadmin
  · rw [usersUpdateAllowed]
    exact hadmin
  · rw [usersDeleteAllowed, hadmin]
    simp
  · rw [rolePermissionsAllAllowed]
    exact hadmin

/-- C4 witness: the observer account of the sample database can write
nothing. -/
theorem observer_writes_denied_witness :
    permitsInsertAllowed sampleDB observerUser.id openPermit = false ∧
    permitsUpdateAllowed sampleDB observerUser.id openPermit = false ∧
    permitsDeleteAllowed sampleDB observerUser.id = false ∧
    usersInsertAllowed sampleDB observerUser.id = false ∧
    usersUpdateAllowed sampleDB observerUser.id = false ∧
    usersDeleteAllowed sampleDB observerUser.id adminUser = false ∧
    rolePermissionsAllAllowed sampleDB observerUser.id = false :=
  observer_writes_denied sampleDB observerUser openPermit adminUser
    (by decide) rfl (by decide)

/-- C5: the seed populates `role_permissions` with exactly the four roles
admin, manager, security_officer and observer, whose capability vectors are
exactly: admin all twelve true; manager all true except `canDeletePermits`,
`canManageUsers`, `canManagePermissions`; security_officer only
`canClosePermits`, `canReopenPermits`, `canViewPermits`,
`canViewActivityLog`; observer only `canViewPermits`. -/
theorem role_permissions_seed_exact :
    rolePermissionsSeed.map RolePermission.role =
      ["admin", "manager", "security_officer", "observer"] ∧
    getCapabilities rolePermissionsSeed "admin" = some
      { canCreatePermits := true, canEditPermits := true, canDeletePermits := true,
        canClosePermits := true, canReopenPermits := true, canViewPermits := true,
        canExportPermits := true, canManageUsers := true, canViewStatistics := true,
        canViewActivityLog := true, canManagePermissions := true,
        canReopenAnyPermit := true } ∧
    getCapabilities rolePermissionsSeed "manager" = some
      { canCreatePermits := true, canEditPermits := true, canDeletePermits := false,
        canClosePermits := true, canReopenPermits := true, canViewPermits := true,
        canExportPermits := true, canManageUsers := false, canViewStatistics := true,
        canViewActivityLog := true, canManagePermissions := false,
        canReopenAnyPermit := true } ∧
    getCapabilities rolePermissionsSeed "security_officer" = some
      { canCreatePermits := false, canEditPermits := false, canDeletePermits := false,
        canClosePermits := true, canReopenPermits := true, canViewPermits := true,
        canExportPermits := false, canManageUsers := false, canViewStatistics := false,
        canViewActivityLog := true, canManagePermissions := false,
        canReopenAnyPermit := false } ∧
    getCapabilities rolePermissionsSeed "observer" = some
      { canCreatePermits := false, canEditPermits := false, canDeletePermits := false,
        canClosePermits := false, canReopenPermits := false, canViewPermits := true,
        canExportPermits := false, canManageUsers := false, canViewStatistics := false,
        canViewActivityLog := false, canManagePermissions := false,
        canReopenAnyPermit := false } := by
  refine ⟨rfl, ?_, ?_, ?_, ?_⟩ <;> rfl

/-- C6: an admin caller (ids unique) may delete a target user row iff the
target is not the caller's own row: self-deletion is denied even for admins,
deleting any other account is allowed. -/
theorem admin_delete_user_iff (db : DB) (u : User) (target : User)
    (hu : u ∈ db.users) (hrole : u.role = "admin")
    (huniq : ∀ v ∈ db.users, v.id = u.id → v = u) :
    usersDeleteAllowed db u.id target = true ↔ target.id ≠ u.id := by
  rw [usersDeleteAllowed, users_any_eq (fun v => v.role == "admin") hu huniq]
  simp [hrole]

/-- C6 witness: the admin may delete the manager account but not itself. -/
theorem admin_delete_user_iff_witness :
    (usersDeleteAllowed sampleDB adminUser.id managerUser = true ↔
      managerUser.id ≠ adminUser.id) ∧
    (usersDeleteAllowed sampleDB adminUser.id adminUser = true ↔
      adminUser.id ≠ adminUser.id) :=
  ⟨admin_delete_user_iff sampleDB adminUser managerUser (by decide) rfl (by decide),
    admin_delete_user_iff sampleDB adminUser adminUser (by decide) rfl (by decide)⟩

/-- C7: an `activity_logs` INSERT passes the WITH CHECK iff the new row's
`user_id` equals the caller's id.  The policy never consults the caller's
role, so the denial for a mismatched `user_id` applies to every role,
admin included. -/
theorem activity_log_insert_iff (uid : Nat) (e : ActivityLog) :
    activityLogsInsertAllowed uid e = true ↔ e.user_id = uid := by
  rw [activityLogsInsertAllowed]
  exact beq_iff_eq

/-- C8: any caller that resolves to a `users` row may read both the
`role_permissions` table and the `regions` table, whatever its role. -/
theorem authenticated_reads_allowed (db : DB) (u : User) (hu : u ∈ db.users) :
    rolePermissionsSelectAllowed db u.id = true ∧
      regionsSelectAllowed db u.id = true := by
  constructor
  · rw [rolePermissionsSelectAllowed]
    exact List.any_eq_true.2 ⟨u, hu, by simp⟩
  · rw [regionsSelectAllowed]
    exact List.any_eq_true.2 ⟨u, hu, by simp⟩

/-- C8 witness: the observer may read role_permissions and regions. -/
theorem authenticated_reads_allowed_witness :
    rolePermissionsSelectAllowed sampleDB observerUser.id = true ∧
      regionsSelectAllowed sampleDB observerUser.id = true :=
  authenticated_reads_allowed sampleDB observerUser (by decide)

theorem validate_user_regions_iff (dbRegions : List Region) (l : List String) :
    validate_user_regions dbRegions l = true ↔
      ∀ r ∈ l, validate_region_code dbRegions r = true := by
  induction l with
  | nil => simp [validate_user_regions]
  | cons r rest ih =>
      rw [validate_user_regions]
      by_cases h : validate_region_code dbRegions r = true
      · simp [h, ih]
      · rw [Bool.eq_false_iff.2 h]
        simp only [Bool.not_false, if_true]
        constructor
        · intro hfalse
          cases hfalse
        · intro hall
          exact absurd (hall r (by simp)) h

/-- C9 counterexample: the claim requires a stored User's region array to be
non-empty, but `validate_user_regions` iterates a FOREACH loop that returns
true on the empty array, so the `users_regions_check` constraint accepts a
row with an empty region array. -/
theorem users_regions_check_empty_counterexample :
    ¬ (users_regions_check regionsSeed { adminUser with region := [] } = true →
        ({ adminUser with region := [] } : User).region ≠ []) := by
  intro h
  exact h rfl rfl

/-- C9 (amended): a stored User row passes the `users_regions_check`
constraint iff every element of its region array exists in the regions
table — in particular a region_set containing an unknown code is rejected;
non-emptiness is not enforced. -/
theorem users_regions_check_iff (dbRegions : List Region) (u : User) :
    users_regions_check dbRegions u = true ↔
      ∀ r ∈ u.region, validate_region_code dbRegions r = true := by
  rw [users_regions_check]
  exact validate_user_regions_iff dbRegions u.region

end MHV
